import Mathlib

/-!
Formal model of the image-intensity backend (src/main.rs) and proofs about it.

The service decodes a multipart-uploaded image into an RGB pixel grid and
returns the average per-pixel intensity: each pixel contributes the integer
floor of (R + G + B) / 3, the per-pixel intensities are accumulated in a u64
together with a u64 pixel count, and the total is divided by the count with
one final f64 division.

Modelling choices: the u64 accumulators are naturals reduced mod 2 ^ 64 at
every step, exactly as wrapping u64 arithmetic behaves; the final f64
division is modelled as exact division in the rationals; the image codec
(the image crate) and the multipart machinery (axum) are external
dependencies, modelled as an oracle parameter and as an event list.
-/

namespace ImageIntensity

/-- RGB pixel; the source reads the three u8 channel values of each pixel of
the rgb8 buffer. Channels are naturals here, with 8-bit-ness a predicate. -/
structure Pixel where
  r : Nat
  g : Nat
  b : Nat
deriving DecidableEq

/-- Channel values are unsigned 8-bit in the source, so a valid pixel has
every channel at most 255. -/
def Pixel.valid (p : Pixel) : Prop :=
  p.r ≤ 255 ∧ p.g ≤ 255 ∧ p.b ≤ 255

instance (p : Pixel) : Decidable p.valid := by
  unfold Pixel.valid; infer_instance

/-- Decoded raster image: width and height (u32 values in the image crate)
and the row-major pixel sequence produced by iterating the rgb8 buffer. -/
structure PixelGrid where
  width : Nat
  height : Nat
  pixels : List Pixel

/-- Well-formedness from the data model: u32 dimensions, width times height
pixels, 8-bit channels. -/
def PixelGrid.wf (g : PixelGrid) : Prop :=
  g.width < 2 ^ 32 ∧ g.height < 2 ^ 32 ∧
  g.pixels.length = g.width * g.height ∧
  ∀ p ∈ g.pixels, p.valid

/-- Typed failure of calculate_image_intensity: the decode failure propagated
from image load_from_memory by the question-mark operator, or the error built
from the string "No pixels found in image". -/
inductive CalcError where
  | decodeError
  | noPixels
deriving DecidableEq

/-- Modulus of the u64 accumulators total_intensity and pixel_count. -/
def u64Mod : Nat := 2 ^ 64

/-- Per-pixel intensity (r + g + b) / 3 in integer (floor) division, as in
the loop body of the source. -/
def pixelIntensity (p : Pixel) : Nat :=
  (p.r + p.g + p.b) / 3

/-- One iteration of the source loop: add the pixel intensity into
total_intensity and 1 into pixel_count, both wrapping u64 values. -/
def intensityStep (acc : Nat × Nat) (p : Pixel) : Nat × Nat :=
  ((acc.1 + pixelIntensity p) % u64Mod, (acc.2 + 1) % u64Mod)

/-- The whole accumulation loop over the pixels of the rgb8 image, starting
from total_intensity = 0 and pixel_count = 0. -/
def intensityLoop (pixels : List Pixel) : Nat × Nat :=
  pixels.foldl intensityStep (0, 0)

/-- Intensity calculation on a decoded pixel sequence: run the loop, fail
when pixel_count is 0, else divide the total by the count (an f64 division
in the source, modelled as exact rational division). -/
def averageIntensityPixels (pixels : List Pixel) : Except CalcError ℚ :=
  if (intensityLoop pixels).2 = 0 then .error .noPixels
  else .ok (((intensityLoop pixels).1 : ℚ) / ((intensityLoop pixels).2 : ℚ))

/-- Intensity calculator on a PixelGrid: the average_intensity contract of
the spec, computed from the pixel sequence of the grid. -/
def average_intensity (g : PixelGrid) : Except CalcError ℚ :=
  averageIntensityPixels g.pixels

/-- Source function calculate_image_intensity: decode the byte buffer (the
image crate is external, modelled as an oracle returning the rgb8 pixel
sequence or failing) and run the calculator on the decoded pixels. -/
def calculate_image_intensity (decode : List Nat → Option (List Pixel))
    (image_data : List Nat) : Except CalcError ℚ :=
  match decode image_data with
  | none => .error .decodeError
  | some pixels => averageIntensityPixels pixels

/-- HTTP status codes of the handler error paths. -/
inductive StatusCode where
  | badRequest
  | unprocessableEntity
deriving DecidableEq

/-- One event of the multipart stream: next_field yields a field carrying
its name and the result of reading its bytes, or next_field itself fails. -/
inductive FieldEvent where
  | field (name : Option String) (data : Except Unit (List Nat))
  | fieldError

/-- Rounding to the nearest integer with ties to even, the rounding applied
by fixed-precision float formatting in Rust. -/
def roundTiesEven (q : ℚ) : ℤ :=
  let fl := ⌊q⌋
  let fr := q - fl
  if fr < 1 / 2 then fl
  else if 1 / 2 < fr then fl + 1
  else if fl % 2 = 0 then fl else fl + 1

/-- Fixed two-decimal formatting of a non-negative value, modelling the
two-decimal format specifier used in the success message of the source. -/
def fmt2 (q : ℚ) : String :=
  let n := (roundTiesEven (q * 100)).toNat
  toString (n / 100) ++ "." ++ (if n % 100 < 10 then "0" else "") ++ toString (n % 100)

/-- Success payload of the endpoint: the IntensityResponse struct of the
source, with the numeric average and the formatted message. -/
structure IntensityResponse where
  average_intensity : ℚ
  message : String
deriving DecidableEq

/-- Source handler calculate_intensity: walk the multipart fields; a failing
next_field maps to 400; on the first field named "image", read its bytes (a
failing read is 400), run calculate_image_intensity and answer the payload
or 422; exhausting the fields without an "image" field is 400. -/
def calculate_intensity (decode : List Nat → Option (List Pixel)) :
    List FieldEvent → Except StatusCode IntensityResponse
  | [] => .error .badRequest
  | .fieldError :: _ => .error .badRequest
  | .field name data :: rest =>
    if name = some "image" then
      match data with
      | .error _ => .error .badRequest
      | .ok bytes =>
        match calculate_image_intensity decode bytes with
        | .ok intensity =>
          .ok ⟨intensity, "Average intensity calculated: " ++ fmt2 intensity⟩
        | .error _ => .error .unprocessableEntity
    else calculate_intensity decode rest

/-- Reference total of the spec: per-pixel floor intensities summed with
unbounded integers, no wrapping. -/
def totalIntensityNat (pixels : List Pixel) : Nat :=
  (pixels.map pixelIntensity).sum

/-- Reference average stated by the spec: the sum of the per-pixel floor
intensities divided by the pixel count. -/
def specAverage (pixels : List Pixel) : ℚ :=
  (totalIntensityNat pixels : ℚ) / (pixels.length : ℚ)

/-- Alternative computation rejected by the spec: exact (floating-point)
division by 3 per pixel, then the mean of those quotients. -/
def altPerPixelDiv (pixels : List Pixel) : ℚ :=
  (pixels.map (fun p => ((p.r + p.g + p.b : Nat) : ℚ) / 3)).sum / (pixels.length : ℚ)

/-- Alternative computation rejected by the spec: sum the raw channel totals
and divide once by three times the pixel count. -/
def altRawSum (pixels : List Pixel) : ℚ :=
  ((pixels.map (fun p => (p.r + p.g + p.b : Nat))).sum : ℚ) / (3 * (pixels.length : ℚ))

/-- Multipart part that the handler loop skips: a field whose name is not
the string "image". -/
def skippedField (e : FieldEvent) : Prop :=
  ∃ nm d, e = FieldEvent.field nm d ∧ nm ≠ some "image"

/-- Event that is not a field named "image" (it may be a parse failure or a
field with any other name). -/
def notImagePart (e : FieldEvent) : Prop :=
  ∀ d, e ≠ FieldEvent.field (some "image") d

/-- Grid of 2 ^ 57 full-white pixels within u32 dimensions; its true
intensity total 255 * 2 ^ 57 exceeds the u64 range. -/
def overflowGridWhite : PixelGrid :=
  ⟨2 ^ 28, 2 ^ 29, List.replicate (2 ^ 57) ⟨255, 255, 255⟩⟩

/-- Grid of 2 ^ 58 pixels all equal to (90, 90, 90), within u32 dimensions;
its true intensity total 90 * 2 ^ 58 exceeds the u64 range. -/
def uniform90Grid : PixelGrid :=
  ⟨2 ^ 29, 2 ^ 29, List.replicate (2 ^ 58) ⟨90, 90, 90⟩⟩

/-- Grid of 2 ^ 58 full-white pixels within u32 dimensions, a second
witness shape for accumulator overflow. -/
def overflowGridWide : PixelGrid :=
  ⟨2 ^ 30, 2 ^ 28, List.replicate (2 ^ 58) ⟨255, 255, 255⟩⟩

lemma intensityLoop_aux (pixels : List Pixel) (t c : Nat) :
    pixels.foldl intensityStep (t % u64Mod, c % u64Mod) =
      ((t + totalIntensityNat pixels) % u64Mod, (c + pixels.length) % u64Mod) := by
  induction pixels generalizing t c with
  | nil => simp [totalIntensityNat]
  | cons p ps ih =>
    simp only [List.foldl_cons, intensityStep]
    rw [Nat.mod_add_mod, Nat.mod_add_mod, ih (t + pixelIntensity p) (c + 1)]
    have hs : totalIntensityNat (p :: ps) = pixelIntensity p + totalIntensityNat ps := by
      simp [totalIntensityNat]
    simp only [hs, List.length_cons, Prod.mk.injEq]
    constructor <;> (congr 1; ring)

/-- Closed form of the source loop: the wrapped total is the true per-pixel
intensity sum mod 2 ^ 64, the wrapped count is the length mod 2 ^ 64. -/
lemma intensityLoop_eq (pixels : List Pixel) :
    intensityLoop pixels =
      (totalIntensityNat pixels % u64Mod, pixels.length % u64Mod) := by
  have h := intensityLoop_aux pixels 0 0
  simpa [intensityLoop] using h

lemma pixelIntensity_le (p : Pixel) (h : p.valid) : pixelIntensity p ≤ 255 := by
  obtain ⟨h1, h2, h3⟩ := h
  unfold pixelIntensity
  omega

lemma totalIntensityNat_le (pixels : List Pixel)
    (h : ∀ p ∈ pixels, p.valid) :
    totalIntensityNat pixels ≤ 255 * pixels.length := by
  induction pixels with
  | nil => simp [totalIntensityNat]
  | cons p ps ih =>
    have hp := pixelIntensity_le p (h p (List.mem_cons_self p ps))
    have hps := ih (fun q hq => h q (List.mem_cons_of_mem p hq))
    simp only [totalIntensityNat, List.map_cons, List.sum_cons, List.length_cons] at *
    omega

lemma totalIntensityNat_replicate (n : Nat) (p : Pixel) :
    totalIntensityNat (List.replicate n p) = n * pixelIntensity p := by
  simp [totalIntensityNat, List.map_replicate, List.sum_replicate, smul_eq_mul]

/-- Pixel count of a well-formed grid fits in a u64. -/
lemma wf_length_lt (g : PixelGrid) (h : g.wf) : g.pixels.length < u64Mod := by
  obtain ⟨hw, hh, hl, _⟩ := h
  have : g.width * g.height ≤ (2 ^ 32 - 1) * (2 ^ 32 - 1) :=
    Nat.mul_le_mul (by omega) (by omega)
  unfold u64Mod
  omega

lemma calculate_intensity_skip (decode : List Nat → Option (List Pixel))
    (pre evs : List FieldEvent) (h : ∀ e ∈ pre, skippedField e) :
    calculate_intensity decode (pre ++ evs) = calculate_intensity decode evs := by
  induction pre with
  | nil => rfl
  | cons e es ih =>
    obtain ⟨nm, d, rfl, hnm⟩ := h e (List.mem_cons_self e es)
    simp only [List.cons_append, calculate_intensity, if_neg hnm]
    exact ih (fun e' he' => h e' (List.mem_cons_of_mem _ he'))

lemma calculate_intensity_no_image (decode : List Nat → Option (List Pixel))
    (evs : List FieldEvent) (h : ∀ e ∈ evs, notImagePart e) :
    calculate_intensity decode evs = .error .badRequest := by
  induction evs with
  | nil => rfl
  | cons e es ih =>
    cases e with
    | fieldError => rfl
    | field nm d =>
      have hnm : nm ≠ some "image" := by
        intro hc
        exact (h _ (List.mem_cons_self _ _)) d (by rw [hc])
      simp only [calculate_intensity, if_neg hnm]
      exact ih (fun e' he' => h e' (List.mem_cons_of_mem _ he'))

lemma calculate_intensity_image_first (decode : List Nat → Option (List Pixel))
    (d : Except Unit (List Nat)) (rest : List FieldEvent) :
    calculate_intensity decode (.field (some "image") d :: rest) =
      calculate_intensity decode [.field (some "image") d] := by
  cases d <;> rfl

lemma calculate_intensity_image_cons (decode : List Nat → Option (List Pixel))
    (bytes : List Nat) (rest : List FieldEvent) :
    calculate_intensity decode (.field (some "image") (.ok bytes) :: rest) =
      match calculate_image_intensity decode bytes with
      | .ok intensity =>
        .ok ⟨intensity, "Average intensity calculated: " ++ fmt2 intensity⟩
      | .error _ => .error .unprocessableEntity := rfl

/-- C2: a well-formed PixelGrid with zero width or zero height has pixel
count zero, and average_intensity returns the empty-image error, never a
numeric result. -/
theorem C2_empty_grid_error (g : PixelGrid) (hwf : g.wf)
    (hz : g.width = 0 ∨ g.height = 0) :
    average_intensity g = .error .noPixels ∧ ∀ q : ℚ, average_intensity g ≠ .ok q := by
  have hlen : g.pixels.length = 0 := by
    obtain ⟨_, _, hl, _⟩ := hwf
    rcases hz with h | h <;> simp [hl, h]
  have hnil : g.pixels = [] := List.eq_nil_of_length_eq_zero hlen
  refine ⟨?_, ?_⟩
  · simp [average_intensity, averageIntensityPixels, hnil, intensityLoop]
  · intro q
    simp [average_intensity, averageIntensityPixels, hnil, intensityLoop]

/-- Witness for C2 on the concrete grid of width 0 and height 5. -/
theorem C2_empty_grid_error_witness :
    average_intensity ⟨0, 5, []⟩ = .error .noPixels ∧
      ∀ q : ℚ, average_intensity ⟨0, 5, []⟩ ≠ .ok q :=
  C2_empty_grid_error ⟨0, 5, []⟩
    ⟨by norm_num, by norm_num, by simp, by simp⟩ (Or.inl rfl)

/-- C3: for every non-empty well-formed PixelGrid of 8-bit RGB pixels, the
value returned by average_intensity lies in the closed interval [0, 255]. -/
theorem C3_range (g : PixelGrid) (hwf : g.wf) (hne : g.pixels ≠ []) :
    ∃ q : ℚ, average_intensity g = .ok q ∧ 0 ≤ q ∧ q ≤ 255 := by
  have hlt := wf_length_lt g hwf
  have hlen0 : g.pixels.length ≠ 0 := by
    have := List.length_pos.mpr hne
    omega
  have hcount : g.pixels.length % u64Mod = g.pixels.length := Nat.mod_eq_of_lt hlt
  refine ⟨((totalIntensityNat g.pixels % u64Mod : Nat) : ℚ) / (g.pixels.length : ℚ),
    ?_, ?_, ?_⟩
  · simp [average_intensity, averageIntensityPixels, intensityLoop_eq, hcount, hlen0]
  · positivity
  · have hS : totalIntensityNat g.pixels % u64Mod ≤ 255 * g.pixels.length :=
      le_trans (Nat.mod_le _ _) (totalIntensityNat_le _ hwf.2.2.2)
    have hpos : (0 : ℚ) < (g.pixels.length : ℚ) := by
      exact_mod_cast Nat.pos_of_ne_zero hlen0
    rw [div_le_iff₀ hpos]
    calc ((totalIntensityNat g.pixels % u64Mod : Nat) : ℚ)
        ≤ ((255 * g.pixels.length : Nat) : ℚ) := by exact_mod_cast hS
      _ = 255 * (g.pixels.length : ℚ) := by push_cast; ring

/-- Witness for C3 on a concrete one-pixel grid. -/
theorem C3_range_witness :
    ∃ q : ℚ, average_intensity ⟨1, 1, [⟨10, 20, 30⟩]⟩ = .ok q ∧ 0 ≤ q ∧ q ≤ 255 :=
  C3_range ⟨1, 1, [⟨10, 20, 30⟩]⟩
    ⟨by norm_num, by norm_num, by simp, by decide⟩ (by simp)

/-- C5: average_intensity is deterministic, and permuting the pixel sequence
of a grid leaves the computed result unchanged. -/
theorem C5_perm_invariant (g₁ g₂ : PixelGrid) (hperm : g₁.pixels.Perm g₂.pixels) :
    average_intensity g₁ = average_intensity g₂ ∧
      average_intensity g₁ = average_intensity g₁ := by
  refine ⟨?_, rfl⟩
  have hsum : totalIntensityNat g₁.pixels = totalIntensityNat g₂.pixels :=
    List.Perm.sum_eq (hperm.map pixelIntensity)
  have hlen : g₁.pixels.length = g₂.pixels.length := hperm.length_eq
  simp [average_intensity, averageIntensityPixels, intensityLoop_eq, hsum, hlen]

/-- Witness for C5 on two concrete grids holding the same two pixels in the
two possible orders. -/
theorem C5_perm_invariant_witness :
    average_intensity ⟨2, 1, [⟨1, 2, 3⟩, ⟨200, 100, 50⟩]⟩ =
        average_intensity ⟨1, 2, [⟨200, 100, 50⟩, ⟨1, 2, 3⟩]⟩ ∧
      average_intensity ⟨2, 1, [⟨1, 2, 3⟩, ⟨200, 100, 50⟩]⟩ =
        average_intensity ⟨2, 1, [⟨1, 2, 3⟩, ⟨200, 100, 50⟩]⟩ :=
  C5_perm_invariant _ _ (List.Perm.swap _ _ _)

/-- C1 (amended): for every non-empty well-formed PixelGrid whose pixel
count n satisfies 255 * n < 2 ^ 64, average_intensity returns Ok of the sum
of the per-pixel floor intensities divided (exactly) by the pixel count. -/
theorem C1_reference_formula (g : PixelGrid) (hwf : g.wf) (hne : g.pixels ≠ [])
    (hbound : 255 * g.pixels.length < 2 ^ 64) :
    average_intensity g = .ok (specAverage g.pixels) := by
  have hS : totalIntensityNat g.pixels ≤ 255 * g.pixels.length :=
    totalIntensityNat_le _ hwf.2.2.2
  have hSlt : totalIntensityNat g.pixels < u64Mod := by unfold u64Mod; omega
  have hlen : g.pixels.length < u64Mod := wf_length_lt g hwf
  have hlen0 : g.pixels.length ≠ 0 := fun h => hne (List.eq_nil_of_length_eq_zero h)
  simp [average_intensity, averageIntensityPixels, intensityLoop_eq,
    Nat.mod_eq_of_lt hSlt, Nat.mod_eq_of_lt hlen, hlen0, specAverage]

/-- Witness for C1 (amended) on a concrete two-pixel grid. -/
theorem C1_reference_formula_witness :
    average_intensity ⟨1, 2, [⟨10, 20, 30⟩, ⟨0, 0, 2⟩]⟩ =
      .ok (specAverage [⟨10, 20, 30⟩, ⟨0, 0, 2⟩]) :=
  C1_reference_formula ⟨1, 2, [⟨10, 20, 30⟩, ⟨0, 0, 2⟩]⟩
    ⟨by norm_num, by norm_num, by simp, by decide⟩ (by simp) (by norm_num)

/-- C1 (counterexample): on the well-formed non-empty grid of 2 ^ 57 white
pixels the code returns 127 while the claimed reference formula gives 255,
because the u64 total wraps; so the claim fails as stated for every
non-empty PixelGrid. -/
theorem C1_counterexample :
    overflowGridWhite.wf ∧ overflowGridWhite.pixels ≠ [] ∧
      average_intensity overflowGridWhite = .ok 127 ∧
      specAverage overflowGridWhite.pixels = 255 ∧
      average_intensity overflowGridWhite ≠ .ok (specAverage overflowGridWhite.pixels) := by
  have hpI : pixelIntensity ⟨255, 255, 255⟩ = 255 := by decide
  have hpix : overflowGridWhite.pixels = List.replicate (2 ^ 57) ⟨255, 255, 255⟩ := rfl
  have hlen : overflowGridWhite.pixels.length = 2 ^ 57 := by
    rw [hpix, List.length_replicate]
  have hS : totalIntensityNat overflowGridWhite.pixels = 2 ^ 57 * 255 := by
    rw [hpix, totalIntensityNat_replicate, hpI]
  have hwf : overflowGridWhite.wf := by
    refine ⟨by norm_num [overflowGridWhite], by norm_num [overflowGridWhite], ?_, ?_⟩
    · rw [hlen]
      show (2 : Nat) ^ 57 = 2 ^ 28 * 2 ^ 29
      norm_num
    · intro p hp
      rw [hpix] at hp
      have hep : p = ⟨255, 255, 255⟩ := List.eq_of_mem_replicate hp
      rw [hep]; decide
  have havg : average_intensity overflowGridWhite = .ok 127 := by
    unfold average_intensity averageIntensityPixels
    rw [intensityLoop_eq, hS, hlen]
    norm_num [u64Mod]
  have hspec : specAverage overflowGridWhite.pixels = 255 := by
    unfold specAverage
    rw [hS, hlen]
    push_cast
    norm_num
  refine ⟨hwf, ?_, havg, hspec, ?_⟩
  · intro h
    rw [h] at hlen
    norm_num at hlen
  · rw [havg, hspec]
    intro h
    rw [Except.ok.injEq] at h
    norm_num at h

/-- C7 (amended): for every non-empty well-formed PixelGrid in which every
pixel is (90, 90, 90) and whose pixel count n keeps the total 90 * n within
2 ^ 53 (so the u64 total neither wraps nor loses precision as an f64),
average_intensity returns exactly 90, independent of the dimensions. -/
theorem C7_uniform90 (g : PixelGrid) (hwf : g.wf) (hne : g.pixels ≠ [])
    (huni : ∀ p ∈ g.pixels, p = ⟨90, 90, 90⟩)
    (hbound : 90 * g.pixels.length ≤ 2 ^ 53) :
    average_intensity g = .ok 90 := by
  have hrep : g.pixels = List.replicate g.pixels.length ⟨90, 90, 90⟩ :=
    List.eq_replicate_iff.mpr ⟨rfl, huni⟩
  have hS : totalIntensityNat g.pixels = g.pixels.length * 90 := by
    conv_lhs => rw [hrep]
    rw [totalIntensityNat_replicate]
    norm_num [pixelIntensity]
  have hlen0 : g.pixels.length ≠ 0 := fun h => hne (List.eq_nil_of_length_eq_zero h)
  have hlt := wf_length_lt g hwf
  have hSlt : totalIntensityNat g.pixels < u64Mod := by
    rw [hS]; unfold u64Mod; omega
  have h0 : (g.pixels.length : ℚ) ≠ 0 := by exact_mod_cast hlen0
  have hq : ((g.pixels.length * 90 : Nat) : ℚ) / (g.pixels.length : ℚ) = 90 := by
    push_cast
    field_simp
  have hmod : g.pixels.length * 90 % u64Mod = g.pixels.length * 90 :=
    Nat.mod_eq_of_lt (hS ▸ hSlt)
  simp [average_intensity, averageIntensityPixels, intensityLoop_eq,
    Nat.mod_eq_of_lt hlt, hlen0, hS, hmod, hq]

/-- Witness for C7 (amended) on a concrete one-pixel uniform grid. -/
theorem C7_uniform90_witness :
    average_intensity ⟨1, 1, [⟨90, 90, 90⟩]⟩ = .ok 90 :=
  C7_uniform90 ⟨1, 1, [⟨90, 90, 90⟩]⟩
    ⟨by norm_num, by norm_num, by decide, by decide⟩ (by simp) (by decide) (by norm_num)

/-- C7 (counterexample): on the well-formed uniform (90, 90, 90) grid of
2 ^ 58 pixels the code returns 26, not 90: the u64 total wraps, so the claim
fails as stated for arbitrary dimensions. -/
theorem C7_counterexample :
    uniform90Grid.wf ∧ uniform90Grid.pixels ≠ [] ∧
      (∀ p ∈ uniform90Grid.pixels, p = ⟨90, 90, 90⟩) ∧
      average_intensity uniform90Grid = .ok 26 ∧
      average_intensity uniform90Grid ≠ .ok 90 := by
  have hpI : pixelIntensity ⟨90, 90, 90⟩ = 90 := by decide
  have hpix : uniform90Grid.pixels = List.replicate (2 ^ 58) ⟨90, 90, 90⟩ := rfl
  have hlen : uniform90Grid.pixels.length = 2 ^ 58 := by
    rw [hpix, List.length_replicate]
  have hS : totalIntensityNat uniform90Grid.pixels = 2 ^ 58 * 90 := by
    rw [hpix, totalIntensityNat_replicate, hpI]
  have hwf : uniform90Grid.wf := by
    refine ⟨by norm_num [uniform90Grid], by norm_num [uniform90Grid], ?_, ?_⟩
    · rw [hlen]
      show (2 : Nat) ^ 58 = 2 ^ 29 * 2 ^ 29
      norm_num
    · intro p hp
      rw [hpix] at hp
      have hep : p = ⟨90, 90, 90⟩ := List.eq_of_mem_replicate hp
      rw [hep]; decide
  have havg : average_intensity uniform90Grid = .ok 26 := by
    unfold average_intensity averageIntensityPixels
    rw [intensityLoop_eq, hS, hlen]
    norm_num [u64Mod]
  refine ⟨hwf, ?_, ?_, havg, ?_⟩
  · intro h
    rw [h] at hlen
    norm_num at hlen
  · intro p hp
    rw [hpix] at hp
    exact List.eq_of_mem_replicate hp
  · rw [havg]
    intro h
    rw [Except.ok.injEq] at h
    norm_num at h

/-- C6 (amended): calculate_image_intensity is total with typed error
results; for every well-formed grid the u64 pixel-count accumulator never
wraps, and the u64 intensity accumulator does not wrap provided 255 times
the pixel count stays below 2 ^ 64. -/
theorem C6_no_overflow :
    (∀ (decode : List Nat → Option (List Pixel)) (bytes : List Nat),
        (∃ q, calculate_image_intensity decode bytes = .ok q) ∨
          (∃ e, calculate_image_intensity decode bytes = .error e)) ∧
      (∀ g : PixelGrid, g.wf →
        (intensityLoop g.pixels).2 = g.pixels.length ∧
          (255 * g.pixels.length < 2 ^ 64 →
            (intensityLoop g.pixels).1 = totalIntensityNat g.pixels)) := by
  constructor
  · intro decode bytes
    cases h : calculate_image_intensity decode bytes with
    | ok q => exact Or.inl ⟨q, rfl⟩
    | error e => exact Or.inr ⟨e, rfl⟩
  · intro g hwf
    rw [intensityLoop_eq]
    refine ⟨Nat.mod_eq_of_lt (wf_length_lt g hwf), fun hb => ?_⟩
    have hS : totalIntensityNat g.pixels ≤ 255 * g.pixels.length :=
      totalIntensityNat_le _ hwf.2.2.2
    exact Nat.mod_eq_of_lt (by unfold u64Mod; omega)

/-- Witness for C6 (amended): the typed-result alternative at a concrete
decoder and buffer, and the no-wrap facts on a concrete one-pixel grid. -/
theorem C6_no_overflow_witness :
    ((∃ q, calculate_image_intensity (fun _ => none) [] = .ok q) ∨
        (∃ e, calculate_image_intensity (fun _ => none) [] = .error e)) ∧
      (intensityLoop [Pixel.mk 255 255 255]).2 = [Pixel.mk 255 255 255].length ∧
      (intensityLoop [Pixel.mk 255 255 255]).1 = totalIntensityNat [Pixel.mk 255 255 255] := by
  have h := C6_no_overflow.2 ⟨1, 1, [⟨255, 255, 255⟩]⟩
    ⟨by norm_num, by norm_num, by decide, by decide⟩
  exact ⟨C6_no_overflow.1 (fun _ => none) [], h.1, h.2 (by norm_num)⟩

/-- C6 (counterexample): on the well-formed grid of 2 ^ 58 white pixels the
u64 intensity accumulator ends at a value different from the true sum, so
the accumulation does overflow even though the running total is bounded by
255 times the pixel count exactly as the claim argues. -/
theorem C6_counterexample :
    overflowGridWide.wf ∧
      totalIntensityNat overflowGridWide.pixels ≤ 255 * overflowGridWide.pixels.length ∧
      (intensityLoop overflowGridWide.pixels).1 ≠ totalIntensityNat overflowGridWide.pixels := by
  have hpI : pixelIntensity ⟨255, 255, 255⟩ = 255 := by decide
  have hpix : overflowGridWide.pixels = List.replicate (2 ^ 58) ⟨255, 255, 255⟩ := rfl
  have hlen : overflowGridWide.pixels.length = 2 ^ 58 := by
    rw [hpix, List.length_replicate]
  have hS : totalIntensityNat overflowGridWide.pixels = 2 ^ 58 * 255 := by
    rw [hpix, totalIntensityNat_replicate, hpI]
  have hwf : overflowGridWide.wf := by
    refine ⟨by norm_num [overflowGridWide], by norm_num [overflowGridWide], ?_, ?_⟩
    · rw [hlen]
      show (2 : Nat) ^ 58 = 2 ^ 30 * 2 ^ 28
      norm_num
    · intro p hp
      rw [hpix] at hp
      have hep : p = ⟨255, 255, 255⟩ := List.eq_of_mem_replicate hp
      rw [hep]; decide
  refine ⟨hwf, ?_, ?_⟩
  · rw [hS, hlen]
    norm_num
  · rw [intensityLoop_eq, hS]
    show (2 ^ 58 * 255) % u64Mod ≠ 2 ^ 58 * 255
    norm_num [u64Mod]

/-- C9: there exists a non-empty well-formed PixelGrid on which the code's
reference computation (per-pixel integer floor, summed, one final division)
differs from both the per-pixel exact-division variant and the
raw-channel-sum variant. -/
theorem C9_distinguishing_grid :
    ∃ g : PixelGrid, g.wf ∧ g.pixels ≠ [] ∧
      average_intensity g = .ok (specAverage g.pixels) ∧
      specAverage g.pixels ≠ altPerPixelDiv g.pixels ∧
      specAverage g.pixels ≠ altRawSum g.pixels := by
  refine ⟨⟨1, 1, [⟨1, 0, 0⟩]⟩, ⟨by norm_num, by norm_num, by decide, by decide⟩,
    by simp, ?_, ?_, ?_⟩
  · show average_intensity ⟨1, 1, [⟨1, 0, 0⟩]⟩ = .ok (specAverage [⟨1, 0, 0⟩])
    simp [average_intensity, averageIntensityPixels, intensityLoop, intensityStep,
      specAverage, totalIntensityNat, pixelIntensity, u64Mod]
  · show specAverage [⟨1, 0, 0⟩] ≠ altPerPixelDiv [⟨1, 0, 0⟩]
    norm_num [specAverage, altPerPixelDiv, totalIntensityNat, pixelIntensity]
  · show specAverage [⟨1, 0, 0⟩] ≠ altRawSum [⟨1, 0, 0⟩]
    norm_num [specAverage, altRawSum, totalIntensityNat, pixelIntensity]

/-- C4: the handler answers 400 when the body has no part named "image" or
fails to parse before one is found, 422 exactly when calculate_image_intensity
fails on the image bytes (which happens when the bytes do not decode and when
they decode to zero pixels), and on success 200 with the numeric average and
the message string built from the two-decimal formatting of that average. -/
theorem C4_handler_statuses :
    (∀ (decode : List Nat → Option (List Pixel)) (evs : List FieldEvent),
        (∀ e ∈ evs, notImagePart e) →
        calculate_intensity decode evs = .error .badRequest) ∧
      (∀ (decode : List Nat → Option (List Pixel)) (pre rest : List FieldEvent),
        (∀ e ∈ pre, skippedField e) →
        calculate_intensity decode (pre ++ .fieldError :: rest) = .error .badRequest) ∧
      (∀ (decode : List Nat → Option (List Pixel)) (bytes : List Nat),
        decode bytes = none →
        calculate_image_intensity decode bytes = .error .decodeError) ∧
      (∀ (decode : List Nat → Option (List Pixel)) (bytes : List Nat),
        decode bytes = some [] →
        calculate_image_intensity decode bytes = .error .noPixels) ∧
      (∀ (decode : List Nat → Option (List Pixel)) (pre rest : List FieldEvent)
          (bytes : List Nat) (e : CalcError),
        (∀ x ∈ pre, skippedField x) →
        calculate_image_intensity decode bytes = .error e →
        calculate_intensity decode (pre ++ .field (some "image") (.ok bytes) :: rest) =
          .error .unprocessableEntity) ∧
      (∀ (decode : List Nat → Option (List Pixel)) (pre rest : List FieldEvent)
          (bytes : List Nat) (q : ℚ),
        (∀ x ∈ pre, skippedField x) →
        calculate_image_intensity decode bytes = .ok q →
        calculate_intensity decode (pre ++ .field (some "image") (.ok bytes) :: rest) =
          .ok ⟨q, "Average intensity calculated: " ++ fmt2 q⟩) := by
  refine ⟨calculate_intensity_no_image, ?_, ?_, ?_, ?_, ?_⟩
  · intro decode pre rest hpre
    rw [calculate_intensity_skip decode pre _ hpre]
    rfl
  · intro decode bytes hdec
    unfold calculate_image_intensity
    rw [hdec]
  · intro decode bytes hdec
    unfold calculate_image_intensity
    rw [hdec]
    rfl
  · intro decode pre rest bytes e hpre hcalc
    rw [calculate_intensity_skip decode pre _ hpre, calculate_intensity_image_cons, hcalc]
  · intro decode pre rest bytes q hpre hcalc
    rw [calculate_intensity_skip decode pre _ hpre, calculate_intensity_image_cons, hcalc]

/-- Witness for C4 at concrete decoders, bodies and buffers: one for each of
the six conjuncts. -/
theorem C4_handler_statuses_witness :
    calculate_intensity (fun _ => none) [] = .error .badRequest ∧
      calculate_intensity (fun _ => none) [FieldEvent.fieldError] = .error .badRequest ∧
      calculate_image_intensity (fun _ => none) [] = .error .decodeError ∧
      calculate_image_intensity (fun _ => some []) [] = .error .noPixels ∧
      calculate_intensity (fun _ => none) [.field (some "image") (.ok [])] =
        .error .unprocessableEntity ∧
      calculate_intensity (fun _ => some [⟨10, 20, 30⟩]) [.field (some "image") (.ok [])] =
        .ok ⟨20, "Average intensity calculated: " ++ fmt2 20⟩ := by
  have h := C4_handler_statuses
  refine ⟨h.1 _ _ ?_, h.2.1 (fun _ => none) [] [] ?_, h.2.2.1 _ _ rfl,
    h.2.2.2.1 _ _ rfl, h.2.2.2.2.1 _ [] [] [] .decodeError ?_ rfl,
    h.2.2.2.2.2 _ [] [] [] 20 ?_ ?_⟩
  · intro e he
    exact absurd he (List.not_mem_nil e)
  · intro e he
    exact absurd he (List.not_mem_nil e)
  · intro e he
    exact absurd he (List.not_mem_nil e)
  · intro e he
    exact absurd he (List.not_mem_nil e)
  · simp [calculate_image_intensity, averageIntensityPixels, intensityLoop,
      intensityStep, pixelIntensity, u64Mod]

/-- C8: a body with no part named "image" yields 400; a body whose "image"
field carries empty byte content reaches the decoder, which fails on the
empty buffer, so the handler yields 422, not 400. -/
theorem C8_missing_vs_empty :
    (∀ (decode : List Nat → Option (List Pixel)) (evs : List FieldEvent),
        (∀ e ∈ evs, notImagePart e) →
        calculate_intensity decode evs = .error .badRequest) ∧
      (∀ (decode : List Nat → Option (List Pixel)) (pre rest : List FieldEvent),
        decode [] = none →
        (∀ e ∈ pre, skippedField e) →
        calculate_image_intensity decode [] = .error .decodeError ∧
          calculate_intensity decode (pre ++ .field (some "image") (.ok []) :: rest) =
            .error .unprocessableEntity) := by
  refine ⟨calculate_intensity_no_image, ?_⟩
  intro decode pre rest hdec hpre
  have hcalc : calculate_image_intensity decode [] = .error .decodeError := by
    unfold calculate_image_intensity
    rw [hdec]
  refine ⟨hcalc, ?_⟩
  rw [calculate_intensity_skip decode pre _ hpre, calculate_intensity_image_cons, hcalc]

/-- Witness for C8 at a concrete decoder that rejects the empty buffer, a
concrete image-free body and a concrete body with an empty "image" field. -/
theorem C8_missing_vs_empty_witness :
    calculate_intensity (fun _ => none) [FieldEvent.field (some "file") (.ok [1])] =
        .error .badRequest ∧
      calculate_image_intensity (fun _ => none) [] = .error .decodeError ∧
        calculate_intensity (fun _ => none)
            [FieldEvent.field (some "file") (.ok [1]), .field (some "image") (.ok [])] =
          .error .unprocessableEntity := by
  have h1 := C8_missing_vs_empty.1 (fun _ => none)
    [FieldEvent.field (some "file") (.ok [1])] ?_
  · have h2 := C8_missing_vs_empty.2 (fun _ => none)
      [FieldEvent.field (some "file") (.ok [1])] [] rfl ?_
    · exact ⟨h1, h2.1, h2.2⟩
    · intro e he
      rw [List.mem_singleton] at he
      subst he
      exact ⟨_, _, rfl, by decide⟩
  · intro e he
    rw [List.mem_singleton] at he
    subst he
    intro d hcontra
    injection hcontra with h1 h2
    exact absurd h1 (by decide)

/-- C10: the handler's outcome is decided by the first field named "image":
earlier fields with other names are skipped without error, and nothing after
that field, including further "image" fields, is ever read. -/
theorem C10_first_image_only (decode : List Nat → Option (List Pixel))
    (pre rest : List FieldEvent) (d : Except Unit (List Nat))
    (hpre : ∀ e ∈ pre, skippedField e) :
    calculate_intensity decode (pre ++ .field (some "image") d :: rest) =
      calculate_intensity decode [.field (some "image") d] := by
  rw [calculate_intensity_skip decode pre _ hpre, calculate_intensity_image_first]

/-- Witness for C10: a concrete body holding a differently named part, then
an "image" part, then a second "image" part that is never read. -/
theorem C10_first_image_only_witness :
    calculate_intensity (fun _ => none)
        ([FieldEvent.field (some "other") (.ok [])] ++
          FieldEvent.field (some "image") (.ok []) ::
            [FieldEvent.field (some "image") (.ok [9])]) =
      calculate_intensity (fun _ => none) [FieldEvent.field (some "image") (.ok [])] :=
  C10_first_image_only (fun _ => none) _ _ _ (by
    intro e he
    rw [List.mem_singleton] at he
    subst he
    exact ⟨_, _, rfl, by decide⟩)

end ImageIntensity
